/-
Verification of the openclaw gateway reliability layer.

Shallow embedding of `src/gateway/circuit-breaker.ts`,
`src/gateway/rate-limiter.ts`, and (modelled from the design document,
since only its test ships in the tree) the NodeRegistry pending-call
machinery, together with proofs of the documented properties.

Times and JS numeric fields are modelled as `Int` (JS numbers under
ordinary integer arithmetic); `Date.now()` becomes an explicit `now`
parameter threaded through the operations.
-/
import Mathlib

namespace Openclaw

/-! ## Circuit breaker (`src/gateway/circuit-breaker.ts`) -/

/-- The three states of a circuit breaker (`CircuitState`). -/
inductive CircuitState
  | CLOSED
  | OPEN
  | HALF_OPEN
  deriving DecidableEq, Repr

/-- `CircuitBreakerConfig`: numeric configuration of a breaker.
The optional `onStateChange` callback is modelled by the `events` log on
the breaker state: each invocation of the observer appends one
`(from, to)` pair. -/
structure CircuitBreakerConfig where
  failureThreshold : Int
  resetTimeoutMs : Int
  halfOpenMaxAttempts : Int
  deriving DecidableEq, Repr

/-- Mutable fields of a `CircuitBreaker` instance, plus the ghost
`events` log recording every `onStateChange` observer invocation in
order. -/
structure CB where
  config : CircuitBreakerConfig
  state : CircuitState
  failures : Int
  successes : Int
  consecutiveFailures : Int
  lastFailureMs : Option Int
  openedAtMs : Option Int
  halfOpenInflight : Int
  events : List (CircuitState × CircuitState)
  deriving DecidableEq, Repr

/-- The freshly constructed breaker (`new CircuitBreaker(config)`). -/
def CB.init (cfg : CircuitBreakerConfig) : CB :=
  { config := cfg
    state := CircuitState.CLOSED
    failures := 0
    successes := 0
    consecutiveFailures := 0
    lastFailureMs := none
    openedAtMs := none
    halfOpenInflight := 0
    events := [] }

/-- `private transition(to)`: set the state and fire the observer with
the `(from, to)` pair. -/
def CB.transition (b : CB) (s : CircuitState) : CB :=
  { b with state := s, events := b.events ++ [(b.state, s)] }

/-- Result of the synchronous admission prelude of `execute`. -/
inductive AdmitResult
  | admitted
  | rejected (state : CircuitState) (retryAfterMs : Int)
  deriving DecidableEq, Repr

/-- The HALF_OPEN gate inside `execute`: reject when
`halfOpenInflight >= halfOpenMaxAttempts`, otherwise count the probe. -/
def CB.halfOpenGate (b : CB) (now : Int) : AdmitResult × CB :=
  if b.state = CircuitState.HALF_OPEN then
    if b.config.halfOpenMaxAttempts ≤ b.halfOpenInflight then
      (AdmitResult.rejected CircuitState.OPEN
        (max 0 (b.config.resetTimeoutMs - (now - b.openedAtMs.getD now))), b)
    else
      (AdmitResult.admitted, { b with halfOpenInflight := b.halfOpenInflight + 1 })
  else
    (AdmitResult.admitted, b)

/-- The synchronous admission prelude of `execute`: the OPEN check
(reject while the reset timeout has not elapsed, else move to
HALF_OPEN) followed by the HALF_OPEN gate. -/
def CB.executeAdmit (b : CB) (now : Int) : AdmitResult × CB :=
  if b.state = CircuitState.OPEN then
    if b.config.resetTimeoutMs ≤ now - b.openedAtMs.getD now then
      CB.halfOpenGate (b.transition CircuitState.HALF_OPEN) now
    else
      (AdmitResult.rejected CircuitState.OPEN
        (b.config.resetTimeoutMs - (now - b.openedAtMs.getD now)), b)
  else
    CB.halfOpenGate b now

/-- `private onSuccess()`. -/
def CB.onSuccess (b : CB) : CB :=
  let b1 := { b with successes := b.successes + 1 }
  if b1.state = CircuitState.HALF_OPEN then
    let b2 := { b1 with halfOpenInflight := b1.halfOpenInflight - 1 }
    let b3 := b2.transition CircuitState.CLOSED
    { b3 with consecutiveFailures := 0, halfOpenInflight := 0 }
  else
    { b1 with consecutiveFailures := 0 }

/-- `private onFailure()`. -/
def CB.onFailure (b : CB) (now : Int) : CB :=
  let b1 := { b with failures := b.failures + 1
                     consecutiveFailures := b.consecutiveFailures + 1
                     lastFailureMs := some now }
  if b1.state = CircuitState.HALF_OPEN then
    let b2 := { b1 with halfOpenInflight := b1.halfOpenInflight - 1 }
    let b3 := b2.transition CircuitState.OPEN
    { b3 with openedAtMs := some now }
  else if b1.state = CircuitState.CLOSED ∧
      b1.config.failureThreshold ≤ b1.consecutiveFailures then
    let b3 := b1.transition CircuitState.OPEN
    { b3 with openedAtMs := some now }
  else
    b1

/-- Outcome of the wrapped async function, abstracting `fn`. -/
inductive FnOutcome
  | success
  | failure
  deriving DecidableEq, Repr

/-- Observable result of one `execute` call. -/
inductive ExecResult
  | ok
  | fnError
  | circuitOpen (state : CircuitState) (retryAfterMs : Int)
  deriving DecidableEq, Repr

/-- `execute(fn)`: admission, then run the wrapped function and record
its outcome.  The third component records whether `fn` was invoked. -/
def CB.execute (b : CB) (now : Int) (outcome : FnOutcome) : ExecResult × CB × Bool :=
  match b.executeAdmit now with
  | (AdmitResult.rejected st retry, b1) => (ExecResult.circuitOpen st retry, b1, false)
  | (AdmitResult.admitted, b1) =>
    match outcome with
    | FnOutcome.success => (ExecResult.ok, b1.onSuccess, true)
    | FnOutcome.failure => (ExecResult.fnError, b1.onFailure now, true)

/-- `reset()`: force CLOSED, clear the consecutive-failure and in-flight
probe counters and the open timestamp.  Note: the state is assigned
directly, not through `transition`, so no observer event is appended. -/
def CB.reset (b : CB) : CB :=
  { b with state := CircuitState.CLOSED
           consecutiveFailures := 0
           halfOpenInflight := 0
           openedAtMs := none }

/-- One externally triggerable operation on a breaker. -/
inductive CBOp
  | exec (now : Int) (outcome : FnOutcome)
  | reset
  deriving DecidableEq, Repr

/-- Apply one operation to a breaker state. -/
def CB.applyOp (b : CB) : CBOp → CB
  | CBOp.exec now outcome => (b.execute now outcome).2.1
  | CBOp.reset => b.reset

/-- A breaker reached from `CB.init cfg` by a sequence of operations. -/
def CB.run (cfg : CircuitBreakerConfig) (ops : List CBOp) : CB :=
  ops.foldl CB.applyOp (CB.init cfg)

/-- `k` consecutive failed calls through `execute`, starting from a
fresh breaker, all at time `now`. -/
def CB.failN (cfg : CircuitBreakerConfig) (now : Int) : Nat → CB
  | 0 => CB.init cfg
  | Nat.succ k => ((CB.failN cfg now k).execute now FnOutcome.failure).2.1

/-! ## Sliding-window rate limiter (`src/gateway/rate-limiter.ts`) -/

/-- `private prune(entry, now)`: drop the leading timestamps with
`ts <= now - windowMs` (`while` over the chronological prefix, then
`splice(0, i)`). -/
def prune (timestamps : List Int) (now windowMs : Int) : List Int :=
  timestamps.dropWhile (fun ts => decide (ts ≤ now - windowMs))

/-- `SlidingWindowRateLimiter`: configuration plus the `buckets` map
from key to the bucket's timestamp list (`none` = key absent). -/
structure SlidingWindowRateLimiter where
  maxRequests : Int
  windowMs : Int
  buckets : String → Option (List Int)

namespace SlidingWindowRateLimiter

/-- `new SlidingWindowRateLimiter(maxRequests, windowMs)`. -/
def init (maxRequests windowMs : Int) : SlidingWindowRateLimiter :=
  { maxRequests := maxRequests, windowMs := windowMs, buckets := fun _ => none }

/-- `buckets.set(key, entry)` with `entry.timestamps = ts`. -/
def setBucket (rl : SlidingWindowRateLimiter) (key : String) (ts : List Int) :
    SlidingWindowRateLimiter :=
  { rl with buckets := fun k => if k = key then some ts else rl.buckets k }

/-- `tryAcquire(key)` at time `now`: returns the boolean result and the
updated limiter.  Mirrors the source: bail out on `maxRequests <= 0`,
get-or-create the entry, prune it, reject when the pruned length has
reached `maxRequests`, otherwise record `now`. -/
def tryAcquire (rl : SlidingWindowRateLimiter) (key : String) (now : Int) :
    Bool × SlidingWindowRateLimiter :=
  if rl.maxRequests ≤ 0 then
    (false, rl)
  else
    let ts := prune ((rl.buckets key).getD []) now rl.windowMs
    if rl.maxRequests ≤ (ts.length : Int) then
      (false, rl.setBucket key ts)
    else
      (true, rl.setBucket key (ts ++ [now]))

/-- `getRemaining(key)` at time `now`. -/
def getRemaining (rl : SlidingWindowRateLimiter) (key : String) (now : Int) :
    Int × SlidingWindowRateLimiter :=
  if rl.maxRequests ≤ 0 then
    (0, rl)
  else
    match rl.buckets key with
    | none => (rl.maxRequests, rl)
    | some ts0 =>
      let ts := prune ts0 now rl.windowMs
      (max 0 (rl.maxRequests - ts.length), rl.setBucket key ts)

/-- `reset(key)`: `buckets.delete(key)`. -/
def resetKey (rl : SlidingWindowRateLimiter) (key : String) : SlidingWindowRateLimiter :=
  { rl with buckets := fun k => if k = key then none else rl.buckets k }

/-- `resetAll()`: `buckets.clear()`. -/
def resetAll (rl : SlidingWindowRateLimiter) : SlidingWindowRateLimiter :=
  { rl with buckets := fun _ => none }

end SlidingWindowRateLimiter

/-- One externally triggerable rate-limiter operation. -/
inductive RLOp
  | tryAcquire (key : String) (now : Int)
  | getRemaining (key : String) (now : Int)
  | resetKey (key : String)
  | resetAll

/-- Apply one operation to a limiter, discarding the returned value. -/
def SlidingWindowRateLimiter.applyOp (rl : SlidingWindowRateLimiter) :
    RLOp → SlidingWindowRateLimiter
  | RLOp.tryAcquire key now => (rl.tryAcquire key now).2
  | RLOp.getRemaining key now => (rl.getRemaining key now).2
  | RLOp.resetKey key => rl.resetKey key
  | RLOp.resetAll => rl.resetAll

/-- A limiter reached from a fresh instance by a sequence of operations. -/
def SlidingWindowRateLimiter.run (maxRequests windowMs : Int) (ops : List RLOp) :
    SlidingWindowRateLimiter :=
  ops.foldl SlidingWindowRateLimiter.applyOp
    (SlidingWindowRateLimiter.init maxRequests windowMs)

/-! ## NodeRegistry pending-call machinery

`node-registry.ts` itself is not part of the shipped sources (only its
test `node-registry.test.ts` is), so the definitions below are modelled
from the design document. -/

/-- Modelled from the spec: the resolution races on one connection's
pending-call set (`node-registry.ts` is missing from the sources).  The
state is the set of live correlation ids plus, as a ghost, how many
times each PendingCall's result continuation has fired.  Per the design
document, each resolution path performs an atomic take of the entry:
remove it, then fire; a path finding the entry absent does nothing. -/
structure PendingState where
  pending : List Nat
  fired : Nat → Nat

/-- Modelled from the spec: one of the three resolution paths reaching a
connection's pending set — a matching response frame, a timeout expiry,
or disconnect/unregister cleanup. -/
inductive ResEvent
  | response (corrId : Nat)
  | timeout (corrId : Nat)
  | disconnect
  deriving DecidableEq, Repr

/-- Modelled from the spec: atomic take of one pending entry — if the
correlation id is present it is removed and its continuation fires once;
otherwise the path takes no action. -/
def PendingState.resolveTake (s : PendingState) (i : Nat) : PendingState :=
  if i ∈ s.pending then
    { pending := s.pending.erase i
      fired := fun j => if j = i then s.fired j + 1 else s.fired j }
  else s

/-- Modelled from the spec: the effect of one resolution event.  A
response or timeout takes its own entry; disconnect cleanup fires every
still-pending continuation (with `NODE_DISCONNECTED`) and empties the
set. -/
def PendingState.stepRes (s : PendingState) : ResEvent → PendingState
  | ResEvent.response i => s.resolveTake i
  | ResEvent.timeout i => s.resolveTake i
  | ResEvent.disconnect =>
    { pending := []
      fired := fun j => if j ∈ s.pending then s.fired j + 1 else s.fired j }

/-- Modelled from the spec: run a whole interleaving of resolution
events. -/
def PendingState.runRes (s : PendingState) (evs : List ResEvent) : PendingState :=
  evs.foldl PendingState.stepRes s

/-- An event resolves the call `i` when it is that call's response, that
call's timeout, or the connection-wide disconnect cleanup. -/
def ResEvent.touches (e : ResEvent) (i : Nat) : Prop :=
  e = ResEvent.response i ∨ e = ResEvent.timeout i ∨ e = ResEvent.disconnect

/-- Modelled from the spec: one connection's registry-side state — its
pending correlation ids and the count of RPC request frames transmitted
over the connection. -/
structure NRConnection where
  pending : List Nat
  framesSent : Nat

/-- Modelled from the spec: the NodeRegistry — node id to connection
map plus the correlation-id allocator. -/
structure NodeRegistry where
  nodes : String → Option NRConnection
  nextCorrId : Nat

/-- Modelled from the spec: the per-connection pending-call bound. -/
def MAX_PENDING_INVOKES : Nat := 1000

/-- Outcome of `invoke` as observable at submission time. -/
inductive InvokeOutcome
  | pendingCreated (corrId : Nat)
  | err (code : String)
  deriving DecidableEq, Repr

/-- Modelled from the spec: `register(connection, metadata)` — admit a
connection with an empty pending set. -/
def NodeRegistry.register (r : NodeRegistry) (nodeId : String) : NodeRegistry :=
  { r with nodes := fun k =>
      if k = nodeId then some { pending := [], framesSent := 0 } else r.nodes k }

/-- Modelled from the spec: a fresh registry. -/
def NodeRegistry.empty : NodeRegistry :=
  { nodes := fun _ => none, nextCorrId := 0 }

/-- Modelled from the spec: `invoke({nodeId, ...})` up to frame
transmission — `NODE_NOT_FOUND` when the node is unknown; `QUEUE_FULL`
with no frame sent and no PendingCall created when the pending set has
reached the bound; otherwise allocate a fresh correlation id, store the
PendingCall and transmit the request frame. -/
def NodeRegistry.invoke (r : NodeRegistry) (nodeId : String) :
    InvokeOutcome × NodeRegistry :=
  match r.nodes nodeId with
  | none => (InvokeOutcome.err "NODE_NOT_FOUND", r)
  | some c =>
    if MAX_PENDING_INVOKES ≤ c.pending.length then
      (InvokeOutcome.err "QUEUE_FULL", r)
    else
      let corr := r.nextCorrId
      let c1 : NRConnection :=
        { pending := c.pending ++ [corr], framesSent := c.framesSent + 1 }
      (InvokeOutcome.pendingCreated corr,
        { nodes := fun k => if k = nodeId then some c1 else r.nodes k
          nextCorrId := corr + 1 })

/-- `k` consecutive invokes against one node, keeping only the state. -/
def NodeRegistry.invokeN (r : NodeRegistry) (nodeId : String) : Nat → NodeRegistry
  | 0 => r
  | Nat.succ k => ((r.invokeN nodeId k).invoke nodeId).2

/-! ## Helper lemmas: circuit breaker -/

theorem CB.executeAdmit_closed (b : CB) (now : Int)
    (h : b.state = CircuitState.CLOSED) :
    b.executeAdmit now = (AdmitResult.admitted, b) := by
  simp [CB.executeAdmit, CB.halfOpenGate, h]

theorem CB.execute_closed_success (b : CB) (now : Int)
    (h : b.state = CircuitState.CLOSED) :
    b.execute now FnOutcome.success = (ExecResult.ok, b.onSuccess, true) := by
  simp [CB.execute, CB.executeAdmit_closed b now h]

theorem CB.execute_closed_failure (b : CB) (now : Int)
    (h : b.state = CircuitState.CLOSED) :
    b.execute now FnOutcome.failure = (ExecResult.fnError, b.onFailure now, true) := by
  simp [CB.execute, CB.executeAdmit_closed b now h]

theorem CB.onSuccess_not_halfOpen (b : CB)
    (h : b.state ≠ CircuitState.HALF_OPEN) :
    b.onSuccess = { b with successes := b.successes + 1, consecutiveFailures := 0 } := by
  simp [CB.onSuccess, h]

theorem CB.onFailure_closed_noTrip (b : CB) (now : Int)
    (h : b.state = CircuitState.CLOSED)
    (hlt : b.consecutiveFailures + 1 < b.config.failureThreshold) :
    b.onFailure now =
      { b with failures := b.failures + 1
               consecutiveFailures := b.consecutiveFailures + 1
               lastFailureMs := some now } := by
  simp [CB.onFailure, h]
  omega

theorem CB.onFailure_closed_trip (b : CB) (now : Int)
    (h : b.state = CircuitState.CLOSED)
    (hge : b.config.failureThreshold ≤ b.consecutiveFailures + 1) :
    b.onFailure now =
      { b with failures := b.failures + 1
               consecutiveFailures := b.consecutiveFailures + 1
               lastFailureMs := some now
               state := CircuitState.OPEN
               openedAtMs := some now
               events := b.events ++ [(CircuitState.CLOSED, CircuitState.OPEN)] } := by
  simp [CB.onFailure, CB.transition, h, hge]

/-- C2: while OPEN with elapsed time strictly below `resetTimeoutMs`,
`execute` rejects immediately with a circuit-open failure carrying state
OPEN and `retryAfterMs = resetTimeoutMs - elapsed` (positive and at most
`resetTimeoutMs`), leaves the breaker unchanged, and never invokes the
wrapped function. -/
theorem open_rejects_immediately_without_invoking (b : CB) (now t : Int) (o : FnOutcome)
    (hs : b.state = CircuitState.OPEN)
    (ho : b.openedAtMs = some t)
    (h0 : 0 ≤ now - t)
    (hlt : now - t < b.config.resetTimeoutMs) :
    b.execute now o =
      (ExecResult.circuitOpen CircuitState.OPEN (b.config.resetTimeoutMs - (now - t)),
        b, false)
    ∧ 0 < b.config.resetTimeoutMs - (now - t)
    ∧ b.config.resetTimeoutMs - (now - t) ≤ b.config.resetTimeoutMs := by
  refine ⟨?_, by omega, by omega⟩
  simp [CB.execute, CB.executeAdmit, hs, ho, not_le.mpr hlt]

/-- Witness for C2 at a concrete breaker: opened at 0, called at 400
with `resetTimeoutMs = 1000`. -/
theorem open_rejects_immediately_without_invoking_witness :
    CB.execute ⟨⟨3, 1000, 2⟩, CircuitState.OPEN, 0, 0, 0, none, some 0, 0, []⟩ 400
        FnOutcome.success
      = (ExecResult.circuitOpen CircuitState.OPEN 600,
         ⟨⟨3, 1000, 2⟩, CircuitState.OPEN, 0, 0, 0, none, some 0, 0, []⟩, false)
    ∧ (0 : Int) < 600 ∧ (600 : Int) ≤ 1000 :=
  open_rejects_immediately_without_invoking
    ⟨⟨3, 1000, 2⟩, CircuitState.OPEN, 0, 0, 0, none, some 0, 0, []⟩ 400 0
    FnOutcome.success rfl rfl (by decide) (by decide)

/-- C9: `reset()` unconditionally forces CLOSED, zeroes the
consecutive-failure count and the in-flight probe count, clears the
open timestamp, and the next `execute` invokes the wrapped function
again. -/
theorem reset_forces_closed_with_zeroed_counters (b : CB) (now : Int) (o : FnOutcome) :
    b.reset.state = CircuitState.CLOSED
    ∧ b.reset.consecutiveFailures = 0
    ∧ b.reset.halfOpenInflight = 0
    ∧ b.reset.openedAtMs = none
    ∧ (b.reset.execute now o).2.2 = true := by
  refine ⟨rfl, rfl, rfl, rfl, ?_⟩
  have h : b.reset.state = CircuitState.CLOSED := rfl
  cases o <;> simp [CB.execute, CB.executeAdmit_closed b.reset now h]

/-- C10: a call rejected in HALF_OPEN because the probe bound is filled
reports state OPEN and `retryAfterMs = max 0 (resetTimeoutMs - (now -
openedAtMs))`; when the reset timeout has already elapsed (which is how
HALF_OPEN is entered), that value is 0. -/
theorem halfOpen_overflow_reports_open_with_clamped_retry (b : CB) (now t : Int)
    (o : FnOutcome)
    (hs : b.state = CircuitState.HALF_OPEN)
    (hfull : b.config.halfOpenMaxAttempts ≤ b.halfOpenInflight)
    (ho : b.openedAtMs = some t) :
    (b.execute now o).1 =
      ExecResult.circuitOpen CircuitState.OPEN
        (max 0 (b.config.resetTimeoutMs - (now - t)))
    ∧ (b.execute now o).2.2 = false
    ∧ (b.config.resetTimeoutMs ≤ now - t →
        (b.execute now o).1 = ExecResult.circuitOpen CircuitState.OPEN 0) := by
  have hne : b.state ≠ CircuitState.OPEN := by rw [hs]; intro h; cases h
  have hgate : b.execute now o =
      (ExecResult.circuitOpen CircuitState.OPEN
        (max 0 (b.config.resetTimeoutMs - (now - t))), b, false) := by
    simp [CB.execute, CB.executeAdmit, CB.halfOpenGate, hne, hs, hfull, ho]
  refine ⟨by rw [hgate], by rw [hgate], ?_⟩
  intro helapsed
  rw [hgate]
  have : max 0 (b.config.resetTimeoutMs - (now - t)) = 0 :=
    max_eq_left (by omega)
  rw [this]

/-- Witness for C10 at a concrete breaker: HALF_OPEN with the single
allowed probe in flight, opened at 0, called at 1500 with
`resetTimeoutMs = 1000`. -/
theorem halfOpen_overflow_reports_open_with_clamped_retry_witness :
    (CB.execute ⟨⟨3, 1000, 1⟩, CircuitState.HALF_OPEN, 3, 0, 3, some 0, some 0, 1,
        [(CircuitState.CLOSED, CircuitState.OPEN),
         (CircuitState.OPEN, CircuitState.HALF_OPEN)]⟩ 1500 FnOutcome.success).1 =
      ExecResult.circuitOpen CircuitState.OPEN (max 0 ((1000 : Int) - (1500 - 0)))
    ∧ (CB.execute ⟨⟨3, 1000, 1⟩, CircuitState.HALF_OPEN, 3, 0, 3, some 0, some 0, 1,
        [(CircuitState.CLOSED, CircuitState.OPEN),
         (CircuitState.OPEN, CircuitState.HALF_OPEN)]⟩ 1500 FnOutcome.success).2.2 = false
    ∧ ((1000 : Int) ≤ 1500 - 0 →
        (CB.execute ⟨⟨3, 1000, 1⟩, CircuitState.HALF_OPEN, 3, 0, 3, some 0, some 0, 1,
          [(CircuitState.CLOSED, CircuitState.OPEN),
           (CircuitState.OPEN, CircuitState.HALF_OPEN)]⟩ 1500 FnOutcome.success).1 =
          ExecResult.circuitOpen CircuitState.OPEN 0) :=
  halfOpen_overflow_reports_open_with_clamped_retry
    ⟨⟨3, 1000, 1⟩, CircuitState.HALF_OPEN, 3, 0, 3, some 0, some 0, 1,
      [(CircuitState.CLOSED, CircuitState.OPEN),
       (CircuitState.OPEN, CircuitState.HALF_OPEN)]⟩ 1500 0
    FnOutcome.success rfl (by decide) rfl

/-! ## Probe-count invariant machinery -/

theorem CB.halfOpenGate_config (b : CB) (now : Int) :
    (b.halfOpenGate now).2.config = b.config := by
  unfold CB.halfOpenGate
  split <;> first | rfl | (split <;> rfl)

theorem CB.executeAdmit_config (b : CB) (now : Int) :
    (b.executeAdmit now).2.config = b.config := by
  unfold CB.executeAdmit
  split
  · split
    · rw [CB.halfOpenGate_config]
      rfl
    · rfl
  · exact CB.halfOpenGate_config b now

theorem CB.onSuccess_config (b : CB) : b.onSuccess.config = b.config := by
  by_cases h1 : b.state = CircuitState.HALF_OPEN <;>
    simp [CB.onSuccess, CB.transition, h1]

theorem CB.onFailure_config (b : CB) (now : Int) :
    (b.onFailure now).config = b.config := by
  by_cases h1 : b.state = CircuitState.HALF_OPEN
  · simp [CB.onFailure, CB.transition, h1]
  · by_cases h2 : b.state = CircuitState.CLOSED ∧
        b.config.failureThreshold ≤ b.consecutiveFailures + 1 <;>
      simp [CB.onFailure, CB.transition, h1, h2]

theorem CB.execute_config (b : CB) (now : Int) (o : FnOutcome) :
    (b.execute now o).2.1.config = b.config := by
  unfold CB.execute
  rcases hadm : b.executeAdmit now with ⟨r, b1⟩
  have hb1 : b1.config = b.config := by
    have := CB.executeAdmit_config b now
    rwa [hadm] at this
  cases r
  · cases o
    · simpa [CB.onSuccess_config] using hb1
    · simpa [CB.onFailure_config] using hb1
  · simpa using hb1

theorem CB.applyOp_config (b : CB) (op : CBOp) : (b.applyOp op).config = b.config := by
  cases op
  · exact CB.execute_config _ _ _
  · rfl

theorem CB.halfOpenGate_inflight (b : CB) (now : Int)
    (h : b.halfOpenInflight ≤ b.config.halfOpenMaxAttempts) :
    (b.halfOpenGate now).2.halfOpenInflight ≤ b.config.halfOpenMaxAttempts := by
  by_cases h1 : b.state = CircuitState.HALF_OPEN
  · by_cases h2 : b.config.halfOpenMaxAttempts ≤ b.halfOpenInflight
    · simpa [CB.halfOpenGate, h1, h2] using h
    · simp [CB.halfOpenGate, h1, h2]
      omega
  · simpa [CB.halfOpenGate, h1] using h

theorem CB.executeAdmit_inflight (b : CB) (now : Int)
    (h : b.halfOpenInflight ≤ b.config.halfOpenMaxAttempts) :
    (b.executeAdmit now).2.halfOpenInflight ≤ b.config.halfOpenMaxAttempts := by
  unfold CB.executeAdmit
  split
  · split
    · exact CB.halfOpenGate_inflight _ now h
    · exact h
  · exact CB.halfOpenGate_inflight b now h

theorem CB.onSuccess_inflight (b : CB)
    (hmax : 0 ≤ b.config.halfOpenMaxAttempts)
    (h : b.halfOpenInflight ≤ b.config.halfOpenMaxAttempts) :
    b.onSuccess.halfOpenInflight ≤ b.config.halfOpenMaxAttempts := by
  by_cases h1 : b.state = CircuitState.HALF_OPEN
  · simpa [CB.onSuccess, CB.transition, h1] using hmax
  · simpa [CB.onSuccess, h1] using h

theorem CB.onFailure_inflight (b : CB) (now : Int)
    (h : b.halfOpenInflight ≤ b.config.halfOpenMaxAttempts) :
    (b.onFailure now).halfOpenInflight ≤ b.config.halfOpenMaxAttempts := by
  by_cases h1 : b.state = CircuitState.HALF_OPEN
  · simp [CB.onFailure, CB.transition, h1]
    omega
  · by_cases h2 : b.state = CircuitState.CLOSED ∧
        b.config.failureThreshold ≤ b.consecutiveFailures + 1 <;>
      simpa [CB.onFailure, CB.transition, h1, h2] using h

theorem CB.execute_inflight (b : CB) (now : Int) (o : FnOutcome)
    (hmax : 0 ≤ b.config.halfOpenMaxAttempts)
    (h : b.halfOpenInflight ≤ b.config.halfOpenMaxAttempts) :
    (b.execute now o).2.1.halfOpenInflight ≤ b.config.halfOpenMaxAttempts := by
  unfold CB.execute
  rcases hadm : b.executeAdmit now with ⟨r, b1⟩
  have hcfg : b1.config = b.config := by
    have := CB.executeAdmit_config b now
    rwa [hadm] at this
  have hb1 : b1.halfOpenInflight ≤ b.config.halfOpenMaxAttempts := by
    have := CB.executeAdmit_inflight b now h
    rwa [hadm] at this
  cases r
  · cases o
    · have := CB.onSuccess_inflight b1 (by rw [hcfg]; exact hmax) (by rw [hcfg]; exact hb1)
      rw [hcfg] at this
      simpa using this
    · have := CB.onFailure_inflight b1 now (by rw [hcfg]; exact hb1)
      rw [hcfg] at this
      simpa using this
  · simpa using hb1

theorem CB.applyOp_inflight (b : CB) (op : CBOp)
    (hmax : 0 ≤ b.config.halfOpenMaxAttempts)
    (h : b.halfOpenInflight ≤ b.config.halfOpenMaxAttempts) :
    (b.applyOp op).halfOpenInflight ≤ b.config.halfOpenMaxAttempts := by
  cases op
  · exact CB.execute_inflight _ _ _ hmax h
  · simpa [CB.applyOp, CB.reset] using hmax

theorem CB.foldl_inflight :
    ∀ (ops : List CBOp) (b : CB),
      0 ≤ b.config.halfOpenMaxAttempts →
      b.halfOpenInflight ≤ b.config.halfOpenMaxAttempts →
      (ops.foldl CB.applyOp b).halfOpenInflight ≤ b.config.halfOpenMaxAttempts
  | [], _, _, h => h
  | op :: rest, b, hmax, h => by
    have hcfg := CB.applyOp_config b op
    have h2 : (b.applyOp op).halfOpenInflight ≤ (b.applyOp op).config.halfOpenMaxAttempts := by
      rw [hcfg]
      exact CB.applyOp_inflight b op hmax h
    have := CB.foldl_inflight rest (b.applyOp op) (by rw [hcfg]; exact hmax) h2
    rw [hcfg] at this
    simpa [List.foldl_cons] using this

/-- C5: in HALF_OPEN, at most `halfOpenMaxAttempts` probes are admitted
concurrently — the in-flight probe counter never exceeds the bound
along any operation sequence from a fresh breaker — and a call arriving
with the bound filled is rejected immediately with a circuit-open
failure computed against the original open timestamp, without invoking
the guarded function and without changing the breaker. -/
theorem halfOpen_probe_bound_invariant (cfg : CircuitBreakerConfig) (ops : List CBOp)
    (b : CB) (now : Int) (o : FnOutcome)
    (hmax : 0 ≤ cfg.halfOpenMaxAttempts)
    (hs : b.state = CircuitState.HALF_OPEN)
    (hfull : b.config.halfOpenMaxAttempts ≤ b.halfOpenInflight) :
    (CB.run cfg ops).halfOpenInflight ≤ cfg.halfOpenMaxAttempts
    ∧ b.execute now o =
        (ExecResult.circuitOpen CircuitState.OPEN
          (max 0 (b.config.resetTimeoutMs - (now - b.openedAtMs.getD now))),
          b, false) := by
  constructor
  · exact CB.foldl_inflight ops (CB.init cfg) hmax (by simpa [CB.init] using hmax)
  · have hne : b.state ≠ CircuitState.OPEN := by rw [hs]; intro h; cases h
    simp [CB.execute, CB.executeAdmit, CB.halfOpenGate, hne, hs, hfull]

/-- Witness for C5: `halfOpenMaxAttempts = 1` with one probe in flight;
the arriving call is rejected without running its function. -/
theorem halfOpen_probe_bound_invariant_witness :
    (CB.run ⟨3, 1000, 1⟩ [CBOp.exec 0 FnOutcome.failure]).halfOpenInflight ≤ (1 : Int)
    ∧ CB.execute ⟨⟨3, 1000, 1⟩, CircuitState.HALF_OPEN, 3, 0, 3, some 0, some 0, 1,
          []⟩ 1500 FnOutcome.success =
        (ExecResult.circuitOpen CircuitState.OPEN
          (max 0 ((1000 : Int) - ((1500 : Int) - (Option.getD (some 0) 1500)))),
          ⟨⟨3, 1000, 1⟩, CircuitState.HALF_OPEN, 3, 0, 3, some 0, some 0, 1, []⟩,
          false) :=
  halfOpen_probe_bound_invariant ⟨3, 1000, 1⟩ [CBOp.exec 0 FnOutcome.failure]
    ⟨⟨3, 1000, 1⟩, CircuitState.HALF_OPEN, 3, 0, 3, some 0, some 0, 1, []⟩
    1500 FnOutcome.success (by decide) rfl (by decide)

/-! ## Consecutive-failure counting -/

theorem CB.onFailure_cf (b : CB) (now : Int) :
    (b.onFailure now).consecutiveFailures = b.consecutiveFailures + 1 := by
  by_cases h1 : b.state = CircuitState.HALF_OPEN
  · simp [CB.onFailure, CB.transition, h1]
  · by_cases h2 : b.state = CircuitState.CLOSED ∧
        b.config.failureThreshold ≤ b.consecutiveFailures + 1 <;>
      simp [CB.onFailure, CB.transition, h1, h2]

theorem CB.failN_below (cfg : CircuitBreakerConfig) (now : Int) :
    ∀ k : Nat, (k : Int) < cfg.failureThreshold →
      (CB.failN cfg now k).state = CircuitState.CLOSED
      ∧ (CB.failN cfg now k).consecutiveFailures = (k : Int)
      ∧ (CB.failN cfg now k).config = cfg
  | 0, _ => by simp [CB.failN, CB.init]
  | Nat.succ k, h => by
    have hk : (k : Int) < cfg.failureThreshold := by push_cast at h ⊢; omega
    obtain ⟨hst, hcf, hcfg⟩ := CB.failN_below cfg now k hk
    have he : CB.failN cfg now (Nat.succ k) = (CB.failN cfg now k).onFailure now := by
      rw [CB.failN, CB.execute_closed_failure _ _ hst]
    have hlt : (CB.failN cfg now k).consecutiveFailures + 1 <
        (CB.failN cfg now k).config.failureThreshold := by
      rw [hcf, hcfg]
      push_cast at h
      omega
    rw [he, CB.onFailure_closed_noTrip _ _ hst hlt]
    refine ⟨hst, ?_, hcfg⟩
    rw [hcf]
    push_cast
    ring

theorem CB.failN_trips (cfg : CircuitBreakerConfig) (now : Int)
    (hN : 1 ≤ cfg.failureThreshold) :
    (CB.failN cfg now cfg.failureThreshold.toNat).state = CircuitState.OPEN
    ∧ (CB.failN cfg now cfg.failureThreshold.toNat).openedAtMs = some now := by
  have htn : (cfg.failureThreshold.toNat : Int) = cfg.failureThreshold :=
    Int.toNat_of_nonneg (by omega)
  obtain ⟨m, hm⟩ : ∃ m, cfg.failureThreshold.toNat = m + 1 :=
    ⟨cfg.failureThreshold.toNat - 1, by omega⟩
  have hk : (m : Int) < cfg.failureThreshold := by
    rw [hm] at htn
    push_cast at htn
    omega
  obtain ⟨hst, hcf, hcfg⟩ := CB.failN_below cfg now m hk
  have hge : (CB.failN cfg now m).config.failureThreshold ≤
      (CB.failN cfg now m).consecutiveFailures + 1 := by
    rw [hcf, hcfg]
    rw [hm] at htn
    push_cast at htn
    omega
  have he : CB.failN cfg now (m + 1) = (CB.failN cfg now m).onFailure now := by
    rw [CB.failN, CB.execute_closed_failure _ _ hst]
  rw [hm, he, CB.onFailure_closed_trip _ _ hst hge]
  exact ⟨rfl, rfl⟩

/-- C4: a breaker starts CLOSED; while CLOSED a failed call increments
`consecutiveFailures` and a successful call resets it to zero without
changing state; with `failureThreshold = N ≥ 1`, after `k < N` failures
the breaker is still CLOSED with count `k`, and the `N`-th consecutive
failure trips it to OPEN and records the open timestamp. -/
theorem closed_failure_counting_and_threshold_trip
    (cfg : CircuitBreakerConfig) (b : CB) (now now2 : Int) (k : Nat)
    (hb : b.state = CircuitState.CLOSED)
    (hk : (k : Int) < cfg.failureThreshold)
    (hN : 1 ≤ cfg.failureThreshold) :
    (CB.init cfg).state = CircuitState.CLOSED
    ∧ (b.execute now2 FnOutcome.failure).2.1.consecutiveFailures =
        b.consecutiveFailures + 1
    ∧ (b.execute now2 FnOutcome.success).2.1.consecutiveFailures = 0
    ∧ (b.execute now2 FnOutcome.success).2.1.state = CircuitState.CLOSED
    ∧ (CB.failN cfg now k).state = CircuitState.CLOSED
    ∧ (CB.failN cfg now k).consecutiveFailures = (k : Int)
    ∧ (CB.failN cfg now cfg.failureThreshold.toNat).state = CircuitState.OPEN
    ∧ (CB.failN cfg now cfg.failureThreshold.toNat).openedAtMs = some now := by
  have hns : b.state ≠ CircuitState.HALF_OPEN := by rw [hb]; intro h; cases h
  obtain ⟨h5, h6, _⟩ := CB.failN_below cfg now k hk
  obtain ⟨h7, h8⟩ := CB.failN_trips cfg now hN
  refine ⟨rfl, ?_, ?_, ?_, h5, h6, h7, h8⟩
  · rw [CB.execute_closed_failure _ _ hb]
    exact CB.onFailure_cf b now2
  · rw [CB.execute_closed_success _ _ hb]
    rw [CB.onSuccess_not_halfOpen _ hns]
  · rw [CB.execute_closed_success _ _ hb]
    rw [CB.onSuccess_not_halfOpen _ hns]
    exact hb

/-- Witness for C4 with `failureThreshold = 3`, two prior failures. -/
theorem closed_failure_counting_and_threshold_trip_witness :
    (CB.init ⟨3, 1000, 2⟩).state = CircuitState.CLOSED
    ∧ ((CB.init ⟨3, 1000, 2⟩).execute 7 FnOutcome.failure).2.1.consecutiveFailures =
        (CB.init ⟨3, 1000, 2⟩).consecutiveFailures + 1
    ∧ ((CB.init ⟨3, 1000, 2⟩).execute 7 FnOutcome.success).2.1.consecutiveFailures = 0
    ∧ ((CB.init ⟨3, 1000, 2⟩).execute 7 FnOutcome.success).2.1.state = CircuitState.CLOSED
    ∧ (CB.failN ⟨3, 1000, 2⟩ 5 2).state = CircuitState.CLOSED
    ∧ (CB.failN ⟨3, 1000, 2⟩ 5 2).consecutiveFailures = ((2 : Nat) : Int)
    ∧ (CB.failN ⟨3, 1000, 2⟩ 5 ((3 : Int).toNat)).state = CircuitState.OPEN
    ∧ (CB.failN ⟨3, 1000, 2⟩ 5 ((3 : Int).toNat)).openedAtMs = some 5 :=
  closed_failure_counting_and_threshold_trip ⟨3, 1000, 2⟩ (CB.init ⟨3, 1000, 2⟩)
    5 7 2 rfl (by decide) (by decide)

/-! ## Observer machinery

`CB.obs` projects away the ghost observer log, so that "absence of the
observer does not affect behavior" becomes: every operation's effect on
the `obs` projection, its result value and its invoked flag are
independent of the `events` field. -/

/-- All observable breaker fields except the observer log. -/
structure CBObs where
  config : CircuitBreakerConfig
  state : CircuitState
  failures : Int
  successes : Int
  consecutiveFailures : Int
  lastFailureMs : Option Int
  openedAtMs : Option Int
  halfOpenInflight : Int
  deriving DecidableEq, Repr

/-- Project away the observer log. -/
def CB.obs (b : CB) : CBObs :=
  ⟨b.config, b.state, b.failures, b.successes, b.consecutiveFailures,
    b.lastFailureMs, b.openedAtMs, b.halfOpenInflight⟩

/-- Drop the observer log (the breaker as it runs with no observer). -/
def CB.clearEvents (b : CB) : CB := { b with events := [] }

theorem CB.halfOpenGate_obs_congr (b b' : CB) (now : Int) (h : b.obs = b'.obs) :
    (b.halfOpenGate now).1 = (b'.halfOpenGate now).1
    ∧ (b.halfOpenGate now).2.obs = (b'.halfOpenGate now).2.obs := by
  cases b with | mk cfg st f s cf lf oa hi ev =>
  cases b' with | mk cfg' st' f' s' cf' lf' oa' hi' ev' =>
  simp only [CB.obs, CBObs.mk.injEq] at h
  obtain ⟨rfl, rfl, rfl, rfl, rfl, rfl, rfl, rfl⟩ := h
  by_cases hs : st = CircuitState.HALF_OPEN
  · by_cases hf : cfg.halfOpenMaxAttempts ≤ hi <;>
      simp [CB.halfOpenGate, CB.obs, hs, hf]
  · simp [CB.halfOpenGate, CB.obs, hs]

theorem CB.executeAdmit_obs_congr (b b' : CB) (now : Int) (h : b.obs = b'.obs) :
    (b.executeAdmit now).1 = (b'.executeAdmit now).1
    ∧ (b.executeAdmit now).2.obs = (b'.executeAdmit now).2.obs := by
  cases b with | mk cfg st f s cf lf oa hi ev =>
  cases b' with | mk cfg' st' f' s' cf' lf' oa' hi' ev' =>
  simp only [CB.obs, CBObs.mk.injEq] at h
  obtain ⟨rfl, rfl, rfl, rfl, rfl, rfl, rfl, rfl⟩ := h
  by_cases hs : st = CircuitState.OPEN
  · by_cases he : cfg.resetTimeoutMs ≤ now - oa.getD now
    · simp only [CB.executeAdmit, hs, he, if_true, if_pos]
      exact CB.halfOpenGate_obs_congr _ _ now rfl
    · simp [CB.executeAdmit, CB.obs, hs, he]
  · simp only [CB.executeAdmit, hs, if_false, if_neg]
    exact CB.halfOpenGate_obs_congr _ _ now rfl

theorem CB.onSuccess_obs_congr (b b' : CB) (h : b.obs = b'.obs) :
    b.onSuccess.obs = b'.onSuccess.obs := by
  cases b with | mk cfg st f s cf lf oa hi ev =>
  cases b' with | mk cfg' st' f' s' cf' lf' oa' hi' ev' =>
  simp only [CB.obs, CBObs.mk.injEq] at h
  obtain ⟨rfl, rfl, rfl, rfl, rfl, rfl, rfl, rfl⟩ := h
  by_cases hs : st = CircuitState.HALF_OPEN <;>
    simp [CB.onSuccess, CB.transition, CB.obs, hs]

theorem CB.onFailure_obs_congr (b b' : CB) (now : Int) (h : b.obs = b'.obs) :
    (b.onFailure now).obs = (b'.onFailure now).obs := by
  cases b with | mk cfg st f s cf lf oa hi ev =>
  cases b' with | mk cfg' st' f' s' cf' lf' oa' hi' ev' =>
  simp only [CB.obs, CBObs.mk.injEq] at h
  obtain ⟨rfl, rfl, rfl, rfl, rfl, rfl, rfl, rfl⟩ := h
  by_cases hs : st = CircuitState.HALF_OPEN
  · simp [CB.onFailure, CB.transition, CB.obs, hs]
  · by_cases ht : st = CircuitState.CLOSED ∧ cfg.failureThreshold ≤ cf + 1 <;>
      simp [CB.onFailure, CB.transition, CB.obs, hs, ht]

theorem CB.execute_obs_congr (b b' : CB) (now : Int) (o : FnOutcome)
    (h : b.obs = b'.obs) :
    (b.execute now o).1 = (b'.execute now o).1
    ∧ (b.execute now o).2.1.obs = (b'.execute now o).2.1.obs
    ∧ (b.execute now o).2.2 = (b'.execute now o).2.2 := by
  obtain ⟨hr, hb⟩ := CB.executeAdmit_obs_congr b b' now h
  rcases ha : b.executeAdmit now with ⟨r, b1⟩
  rcases ha' : b'.executeAdmit now with ⟨r', b1'⟩
  rw [ha, ha'] at hr hb
  simp only at hr hb
  subst hr
  cases r with
  | rejected st retry => simp [CB.execute, ha, ha', hb]
  | admitted =>
    cases o with
    | success => simp [CB.execute, ha, ha', CB.onSuccess_obs_congr b1 b1' hb]
    | failure => simp [CB.execute, ha, ha', CB.onFailure_obs_congr b1 b1' now hb]

theorem CB.applyOp_obs_congr (b b' : CB) (op : CBOp) (h : b.obs = b'.obs) :
    (b.applyOp op).obs = (b'.applyOp op).obs := by
  cases op with
  | exec now o => exact (CB.execute_obs_congr b b' now o h).2.1
  | reset =>
    cases b with | mk cfg st f s cf lf oa hi ev =>
    cases b' with | mk cfg' st' f' s' cf' lf' oa' hi' ev' =>
    simp only [CB.obs, CBObs.mk.injEq] at h
    obtain ⟨rfl, rfl, rfl, rfl, rfl, rfl, rfl, rfl⟩ := h
    simp [CB.applyOp, CB.reset, CB.obs]

theorem CB.halfOpenGate_events (b : CB) (now : Int) :
    (b.halfOpenGate now).2.events = b.events := by
  by_cases hs : b.state = CircuitState.HALF_OPEN
  · by_cases hf : b.config.halfOpenMaxAttempts ≤ b.halfOpenInflight <;>
      simp [CB.halfOpenGate, hs, hf]
  · simp [CB.halfOpenGate, hs]

/-- C8 counterexample: trip a breaker with `failureThreshold = 1` to
OPEN (the observer fires once, for CLOSED→OPEN), then call `reset()`:
the state changes OPEN→CLOSED but the observer log is unchanged — the
observer is not invoked for the forced transition, contradicting the
claim. -/
theorem reset_does_not_fire_observer_counterexample :
    (CB.failN ⟨1, 1000, 1⟩ 0 1).state = CircuitState.OPEN
    ∧ (CB.failN ⟨1, 1000, 1⟩ 0 1).reset.state = CircuitState.CLOSED
    ∧ (CB.failN ⟨1, 1000, 1⟩ 0 1).reset.events =
        [(CircuitState.CLOSED, CircuitState.OPEN)]
    ∧ (CB.failN ⟨1, 1000, 1⟩ 0 1).reset.events ≠
        (CB.failN ⟨1, 1000, 1⟩ 0 1).events ++
          [(CircuitState.OPEN, CircuitState.CLOSED)] := by
  decide

/-- C8 (amended): the observer fires exactly once with the `(from, to)`
pair for each state change performed by `execute`'s machinery — the
CLOSED→OPEN trip, the OPEN→HALF_OPEN move after the reset timeout, and
the HALF_OPEN→CLOSED / HALF_OPEN→OPEN probe outcomes — and fires no
event when no transition happens; `reset()` forces CLOSED without
invoking the observer; and the observer log never feeds back into
behavior, so running without an observer yields the same results,
invoked flags and counter evolution. -/
theorem observer_fires_per_execute_transition_but_not_on_reset
    (b1 b2 b3 b4 b5 b6 : CB) (now t : Int) (op : CBOp) (o : FnOutcome)
    (h1 : b1.state = CircuitState.CLOSED)
    (h2 : b2.state = CircuitState.CLOSED)
    (h2t : b2.config.failureThreshold ≤ b2.consecutiveFailures + 1)
    (h3 : b3.state = CircuitState.CLOSED)
    (h3t : b3.consecutiveFailures + 1 < b3.config.failureThreshold)
    (h4 : b4.state = CircuitState.OPEN)
    (h4o : b4.openedAtMs = some t)
    (h4e : b4.config.resetTimeoutMs ≤ now - t)
    (h5 : b5.state = CircuitState.HALF_OPEN) :
    (b1.execute now FnOutcome.success).2.1.events = b1.events
    ∧ (b2.execute now FnOutcome.failure).2.1.events =
        b2.events ++ [(CircuitState.CLOSED, CircuitState.OPEN)]
    ∧ (b3.execute now FnOutcome.failure).2.1.events = b3.events
    ∧ (b4.executeAdmit now).2.events =
        b4.events ++ [(CircuitState.OPEN, CircuitState.HALF_OPEN)]
    ∧ b5.onSuccess.events =
        b5.events ++ [(CircuitState.HALF_OPEN, CircuitState.CLOSED)]
    ∧ (b5.onFailure now).events =
        b5.events ++ [(CircuitState.HALF_OPEN, CircuitState.OPEN)]
    ∧ b6.reset.state = CircuitState.CLOSED
    ∧ b6.reset.events = b6.events
    ∧ (b6.clearEvents.applyOp op).obs = (b6.applyOp op).obs
    ∧ (b6.clearEvents.execute now o).1 = (b6.execute now o).1
    ∧ (b6.clearEvents.execute now o).2.2 = (b6.execute now o).2.2 := by
  have hns1 : b1.state ≠ CircuitState.HALF_OPEN := by rw [h1]; intro hh; cases hh
  refine ⟨?_, ?_, ?_, ?_, ?_, ?_, rfl, rfl, ?_, ?_, ?_⟩
  · rw [CB.execute_closed_success _ _ h1, CB.onSuccess_not_halfOpen _ hns1]
  · rw [CB.execute_closed_failure _ _ h2, CB.onFailure_closed_trip _ _ h2 h2t]
  · rw [CB.execute_closed_failure _ _ h3, CB.onFailure_closed_noTrip _ _ h3 h3t]
  · have he : b4.config.resetTimeoutMs ≤ now - b4.openedAtMs.getD now := by
      rw [h4o]
      simpa using h4e
    have : b4.executeAdmit now = (b4.transition CircuitState.HALF_OPEN).halfOpenGate now := by
      simp [CB.executeAdmit, h4, he]
    rw [this, CB.halfOpenGate_events]
    simp [CB.transition, h4]
  · simp [CB.onSuccess, CB.transition, h5]
  · simp [CB.onFailure, CB.transition, h5]
  · exact CB.applyOp_obs_congr b6.clearEvents b6 op rfl
  · exact (CB.execute_obs_congr b6.clearEvents b6 now o rfl).1
  · exact (CB.execute_obs_congr b6.clearEvents b6 now o rfl).2.2

/-- Witness for the amended C8 at concrete breakers covering each
transition kind. -/
theorem observer_fires_per_execute_transition_but_not_on_reset_witness :
    ((CB.init ⟨3, 1000, 2⟩).execute 1500 FnOutcome.success).2.1.events =
        (CB.init ⟨3, 1000, 2⟩).events
    ∧ (CB.execute ⟨⟨1, 1000, 2⟩, CircuitState.CLOSED, 0, 0, 0, none, none, 0, []⟩
          1500 FnOutcome.failure).2.1.events =
        (⟨⟨1, 1000, 2⟩, CircuitState.CLOSED, 0, 0, 0, none, none, 0, []⟩ : CB).events ++
          [(CircuitState.CLOSED, CircuitState.OPEN)]
    ∧ (CB.execute ⟨⟨3, 1000, 2⟩, CircuitState.CLOSED, 0, 0, 0, none, none, 0, []⟩
          1500 FnOutcome.failure).2.1.events =
        (⟨⟨3, 1000, 2⟩, CircuitState.CLOSED, 0, 0, 0, none, none, 0, []⟩ : CB).events
    ∧ (CB.executeAdmit ⟨⟨3, 1000, 2⟩, CircuitState.OPEN, 3, 0, 3, some 0, some 0, 0, []⟩
          1500).2.events =
        (⟨⟨3, 1000, 2⟩, CircuitState.OPEN, 3, 0, 3, some 0, some 0, 0, []⟩ : CB).events ++
          [(CircuitState.OPEN, CircuitState.HALF_OPEN)]
    ∧ (CB.onSuccess ⟨⟨3, 1000, 2⟩, CircuitState.HALF_OPEN, 3, 0, 3, some 0, some 0, 1, []⟩).events =
        (⟨⟨3, 1000, 2⟩, CircuitState.HALF_OPEN, 3, 0, 3, some 0, some 0, 1, []⟩ : CB).events ++
          [(CircuitState.HALF_OPEN, CircuitState.CLOSED)]
    ∧ (CB.onFailure ⟨⟨3, 1000, 2⟩, CircuitState.HALF_OPEN, 3, 0, 3, some 0, some 0, 1, []⟩
          1500).events =
        (⟨⟨3, 1000, 2⟩, CircuitState.HALF_OPEN, 3, 0, 3, some 0, some 0, 1, []⟩ : CB).events ++
          [(CircuitState.HALF_OPEN, CircuitState.OPEN)]
    ∧ (CB.reset ⟨⟨3, 1000, 2⟩, CircuitState.HALF_OPEN, 3, 0, 3, some 0, some 0, 1,
        [(CircuitState.CLOSED, CircuitState.OPEN)]⟩).state = CircuitState.CLOSED
    ∧ (CB.reset ⟨⟨3, 1000, 2⟩, CircuitState.HALF_OPEN, 3, 0, 3, some 0, some 0, 1,
        [(CircuitState.CLOSED, CircuitState.OPEN)]⟩).events =
        (⟨⟨3, 1000, 2⟩, CircuitState.HALF_OPEN, 3, 0, 3, some 0, some 0, 1,
          [(CircuitState.CLOSED, CircuitState.OPEN)]⟩ : CB).events
    ∧ ((⟨⟨3, 1000, 2⟩, CircuitState.HALF_OPEN, 3, 0, 3, some 0, some 0, 1,
          [(CircuitState.CLOSED, CircuitState.OPEN)]⟩ : CB).clearEvents.applyOp
            CBOp.reset).obs =
        ((⟨⟨3, 1000, 2⟩, CircuitState.HALF_OPEN, 3, 0, 3, some 0, some 0, 1,
          [(CircuitState.CLOSED, CircuitState.OPEN)]⟩ : CB).applyOp CBOp.reset).obs
    ∧ ((⟨⟨3, 1000, 2⟩, CircuitState.HALF_OPEN, 3, 0, 3, some 0, some 0, 1,
          [(CircuitState.CLOSED, CircuitState.OPEN)]⟩ : CB).clearEvents.execute 1500
            FnOutcome.success).1 =
        ((⟨⟨3, 1000, 2⟩, CircuitState.HALF_OPEN, 3, 0, 3, some 0, some 0, 1,
          [(CircuitState.CLOSED, CircuitState.OPEN)]⟩ : CB).execute 1500
            FnOutcome.success).1
    ∧ ((⟨⟨3, 1000, 2⟩, CircuitState.HALF_OPEN, 3, 0, 3, some 0, some 0, 1,
          [(CircuitState.CLOSED, CircuitState.OPEN)]⟩ : CB).clearEvents.execute 1500
            FnOutcome.success).2.2 =
        ((⟨⟨3, 1000, 2⟩, CircuitState.HALF_OPEN, 3, 0, 3, some 0, some 0, 1,
          [(CircuitState.CLOSED, CircuitState.OPEN)]⟩ : CB).execute 1500
            FnOutcome.success).2.2 :=
  observer_fires_per_execute_transition_but_not_on_reset
    (CB.init ⟨3, 1000, 2⟩)
    ⟨⟨1, 1000, 2⟩, CircuitState.CLOSED, 0, 0, 0, none, none, 0, []⟩
    ⟨⟨3, 1000, 2⟩, CircuitState.CLOSED, 0, 0, 0, none, none, 0, []⟩
    ⟨⟨3, 1000, 2⟩, CircuitState.OPEN, 3, 0, 3, some 0, some 0, 0, []⟩
    ⟨⟨3, 1000, 2⟩, CircuitState.HALF_OPEN, 3, 0, 3, some 0, some 0, 1, []⟩
    ⟨⟨3, 1000, 2⟩, CircuitState.HALF_OPEN, 3, 0, 3, some 0, some 0, 1,
      [(CircuitState.CLOSED, CircuitState.OPEN)]⟩
    1500 0 CBOp.reset FnOutcome.success
    rfl rfl (by decide) rfl (by decide) rfl rfl (by decide) rfl

/-! ## Rate-limiter lemmas -/

theorem dropWhile_le_eq_filter_lt (c : Int) :
    ∀ (l : List Int), l.Sorted (· ≤ ·) →
      l.dropWhile (fun ts => decide (ts ≤ c)) = l.filter (fun ts => decide (c < ts))
  | [], _ => rfl
  | a :: t, h => by
    have ht : t.Sorted (· ≤ ·) := (List.sorted_cons.mp h).2
    rw [List.dropWhile_cons, List.filter_cons]
    simp only [decide_eq_true_eq]
    by_cases hac : a ≤ c
    · rw [if_pos hac, if_neg (not_lt.mpr hac)]
      exact dropWhile_le_eq_filter_lt c t ht
    · rw [if_neg hac, if_pos (not_le.mp hac)]
      refine congrArg (a :: ·) (List.filter_eq_self.mpr ?_).symm
      intro x hx
      simpa using lt_of_lt_of_le (not_le.mp hac) (List.rel_of_sorted_cons h x hx)

theorem prune_sorted_eq_filter (l : List Int) (now w : Int) (h : l.Sorted (· ≤ ·)) :
    prune l now w = l.filter (fun ts => decide (now - w < ts)) :=
  dropWhile_le_eq_filter_lt (now - w) l h

theorem prune_length_le (l : List Int) (now w : Int) :
    (prune l now w).length ≤ l.length :=
  (List.dropWhile_sublist _).length_le

theorem prune_subset (l : List Int) (now w : Int) {ts : Int}
    (h : ts ∈ prune l now w) : ts ∈ l :=
  (List.dropWhile_sublist _).subset h

/-- C6 counterexample: with `windowMs = 1000` and a single timestamp 0,
pruning at `now = 1000` removes the timestamp even though it is not
older than `now - windowMs = 0` and lies inside the claimed closed
interval `[now - windowMs, now]` — the code removes `ts ≤ cutoff`, not
only `ts < cutoff`. -/
theorem prune_drops_boundary_timestamp_counterexample :
    prune [(0 : Int)] 1000 1000 = []
    ∧ ¬ ((0 : Int) < 1000 - 1000)
    ∧ ((1000 : Int) - 1000 ≤ 0 ∧ (0 : Int) ≤ 1000) := by
  decide

/-- C6 (amended): for a bucket in non-decreasing order whose entries are
at most `now`, the pruning step removes exactly the timestamps at or
before `now - windowMs` (that is, `ts ≤ now - windowMs`, boundary
included) and retains the others, so every retained timestamp lies in
the half-open interval `(now - windowMs, now]`. -/
theorem prune_removes_exactly_at_or_before_cutoff (l : List Int) (now w ts : Int)
    (hs : l.Sorted (· ≤ ·))
    (hle : ∀ x ∈ l, x ≤ now)
    (hts : ts ∈ prune l now w) :
    prune l now w = l.filter (fun x => decide (now - w < x))
    ∧ now - w < ts ∧ ts ≤ now := by
  refine ⟨prune_sorted_eq_filter l now w hs, ?_, hle ts (prune_subset l now w hts)⟩
  rw [prune_sorted_eq_filter l now w hs] at hts
  simpa using List.of_mem_filter hts

/-- Witness for the amended C6: bucket `[0, 5, 10]`, `now = 10`,
`windowMs = 6`; the entry `0 ≤ 4` is pruned, `5` and `10` are kept. -/
theorem prune_removes_exactly_at_or_before_cutoff_witness :
    prune [(0 : Int), 5, 10] 10 6 =
      List.filter (fun x => decide ((10 : Int) - 6 < x)) [(0 : Int), 5, 10]
    ∧ (10 : Int) - 6 < 5 ∧ (5 : Int) ≤ 10 :=
  prune_removes_exactly_at_or_before_cutoff [(0 : Int), 5, 10] 10 6 5
    (by decide) (by decide) (by decide)

/-! ## Rate-limiter bucket-length invariant -/

theorem SlidingWindowRateLimiter.applyOp_maxRequests
    (rl : SlidingWindowRateLimiter) (op : RLOp) :
    (rl.applyOp op).maxRequests = rl.maxRequests := by
  cases op with
  | tryAcquire key now =>
    by_cases h0 : rl.maxRequests ≤ 0
    · simp [SlidingWindowRateLimiter.applyOp, SlidingWindowRateLimiter.tryAcquire, h0]
    · by_cases h1 : rl.maxRequests ≤
          ((prune ((rl.buckets key).getD []) now rl.windowMs).length : Int) <;>
        simp [SlidingWindowRateLimiter.applyOp, SlidingWindowRateLimiter.tryAcquire,
          SlidingWindowRateLimiter.setBucket, h0, h1]
  | getRemaining key now =>
    by_cases h0 : rl.maxRequests ≤ 0
    · simp [SlidingWindowRateLimiter.applyOp, SlidingWindowRateLimiter.getRemaining, h0]
    · rcases hb : rl.buckets key with _ | ts0 <;>
        simp [SlidingWindowRateLimiter.applyOp, SlidingWindowRateLimiter.getRemaining,
          SlidingWindowRateLimiter.setBucket, h0, hb]
  | resetKey key =>
    simp [SlidingWindowRateLimiter.applyOp, SlidingWindowRateLimiter.resetKey]
  | resetAll =>
    simp [SlidingWindowRateLimiter.applyOp, SlidingWindowRateLimiter.resetAll]

theorem SlidingWindowRateLimiter.applyOp_bucket_le
    (rl : SlidingWindowRateLimiter) (op : RLOp)
    (hmr : 0 ≤ rl.maxRequests)
    (h : ∀ k, (((rl.buckets k).getD []).length : Int) ≤ rl.maxRequests) :
    ∀ k, ((((rl.applyOp op).buckets k).getD []).length : Int) ≤ rl.maxRequests := by
  intro k
  cases op with
  | tryAcquire key now =>
    by_cases h0 : rl.maxRequests ≤ 0
    · simpa [SlidingWindowRateLimiter.applyOp, SlidingWindowRateLimiter.tryAcquire, h0]
        using h k
    · have hcast : ((prune ((rl.buckets key).getD []) now rl.windowMs).length : Int) ≤
          ((((rl.buckets key).getD []) : List Int).length : Int) := by
        exact_mod_cast prune_length_le ((rl.buckets key).getD []) now rl.windowMs
      have hplen := le_trans hcast (h key)
      by_cases h1 : rl.maxRequests ≤
          ((prune ((rl.buckets key).getD []) now rl.windowMs).length : Int)
      · by_cases hk : k = key
        · simp only [SlidingWindowRateLimiter.applyOp,
            SlidingWindowRateLimiter.tryAcquire, SlidingWindowRateLimiter.setBucket,
            if_neg h0, if_pos h1, hk, if_pos rfl]
          simpa using hplen
        · simp only [SlidingWindowRateLimiter.applyOp,
            SlidingWindowRateLimiter.tryAcquire, SlidingWindowRateLimiter.setBucket,
            if_neg h0, if_pos h1, if_neg hk]
          exact h k
      · by_cases hk : k = key
        · simp [SlidingWindowRateLimiter.applyOp, SlidingWindowRateLimiter.tryAcquire,
            SlidingWindowRateLimiter.setBucket, if_neg h0, if_neg h1, hk]
          omega
        · simp only [SlidingWindowRateLimiter.applyOp,
            SlidingWindowRateLimiter.tryAcquire, SlidingWindowRateLimiter.setBucket,
            if_neg h0, if_neg h1, if_neg hk]
          exact h k
  | getRemaining key now =>
    by_cases h0 : rl.maxRequests ≤ 0
    · simpa [SlidingWindowRateLimiter.applyOp, SlidingWindowRateLimiter.getRemaining,
        h0] using h k
    · rcases hb : rl.buckets key with _ | ts0
      · simpa [SlidingWindowRateLimiter.applyOp, SlidingWindowRateLimiter.getRemaining,
          h0, hb] using h k
      · have hlen : ((prune ts0 now rl.windowMs).length : Int) ≤ rl.maxRequests := by
          have h2 := h key
          rw [hb] at h2
          have hc2 : ((prune ts0 now rl.windowMs).length : Int) ≤
              ((ts0.length : Nat) : Int) := by
            exact_mod_cast prune_length_le ts0 now rl.windowMs
          exact le_trans hc2 (by simpa using h2)
        by_cases hk : k = key
        · simp only [SlidingWindowRateLimiter.applyOp,
            SlidingWindowRateLimiter.getRemaining, SlidingWindowRateLimiter.setBucket,
            if_neg h0, hb, hk, if_pos rfl]
          simpa using hlen
        · simp only [SlidingWindowRateLimiter.applyOp,
            SlidingWindowRateLimiter.getRemaining, SlidingWindowRateLimiter.setBucket,
            if_neg h0, hb, if_neg hk]
          exact h k
  | resetKey key =>
    by_cases hk : k = key
    · simp only [SlidingWindowRateLimiter.applyOp, SlidingWindowRateLimiter.resetKey,
        hk, if_pos rfl]
      simpa using hmr
    · simp only [SlidingWindowRateLimiter.applyOp, SlidingWindowRateLimiter.resetKey,
        if_neg hk]
      exact h k
  | resetAll =>
    simpa [SlidingWindowRateLimiter.applyOp, SlidingWindowRateLimiter.resetAll]
      using hmr

theorem SlidingWindowRateLimiter.foldl_bucket_le :
    ∀ (ops : List RLOp) (rl : SlidingWindowRateLimiter),
      0 ≤ rl.maxRequests →
      (∀ k, (((rl.buckets k).getD []).length : Int) ≤ rl.maxRequests) →
      ∀ k, ((((ops.foldl SlidingWindowRateLimiter.applyOp rl).buckets k).getD
          []).length : Int) ≤ rl.maxRequests
  | [], _, _, h => h
  | op :: rest, rl, hmr, h => by
    have hmx := SlidingWindowRateLimiter.applyOp_maxRequests rl op
    have := SlidingWindowRateLimiter.foldl_bucket_le rest (rl.applyOp op)
      (by rw [hmx]; exact hmr)
      (by
        intro k
        rw [hmx]
        exact SlidingWindowRateLimiter.applyOp_bucket_le rl op hmr h k)
    rw [hmx] at this
    simpa [List.foldl_cons] using this

/-- C7: over any operation sequence from a fresh limiter with
`maxRequests ≥ 0`, every key's bucket length stays at most
`maxRequests`; moreover a `tryAcquire` whose pruned bucket already has
`maxRequests` entries returns `false` and stores the pruned bucket
unchanged — no timestamp is recorded. -/
theorem bucket_length_bounded_and_full_acquire_rejects
    (mr w : Int) (ops : List RLOp) (key : String)
    (rl : SlidingWindowRateLimiter) (key2 : String) (now : Int)
    (hmr : 0 ≤ mr)
    (hpos : 0 < rl.maxRequests)
    (hfull : rl.maxRequests ≤
      ((prune ((rl.buckets key2).getD []) now rl.windowMs).length : Int)) :
    ((((SlidingWindowRateLimiter.run mr w ops).buckets key).getD []).length : Int) ≤ mr
    ∧ (rl.tryAcquire key2 now).1 = false
    ∧ (rl.tryAcquire key2 now).2.buckets key2 =
        some (prune ((rl.buckets key2).getD []) now rl.windowMs) := by
  refine ⟨?_, ?_, ?_⟩
  · exact SlidingWindowRateLimiter.foldl_bucket_le ops
      (SlidingWindowRateLimiter.init mr w) hmr
      (by intro k; simpa [SlidingWindowRateLimiter.init] using hmr) key
  · simp [SlidingWindowRateLimiter.tryAcquire, not_le.mpr hpos, hfull]
  · simp [SlidingWindowRateLimiter.tryAcquire, SlidingWindowRateLimiter.setBucket,
      not_le.mpr hpos, hfull]

/-- Witness for C7: limiter `maxRequests = 2`, three acquires of one
key; plus a saturated limiter (`maxRequests = 1`, one live timestamp)
rejecting a further acquire. -/
theorem bucket_length_bounded_and_full_acquire_rejects_witness :
    ((((SlidingWindowRateLimiter.run 2 5
          [RLOp.tryAcquire "k" 0, RLOp.tryAcquire "k" 0, RLOp.tryAcquire "k" 0]).buckets
          "k").getD []).length : Int) ≤ 2
    ∧ (SlidingWindowRateLimiter.tryAcquire
        ⟨1, 5, fun k => if k = "a" then some [0] else none⟩ "a" 0).1 = false
    ∧ (SlidingWindowRateLimiter.tryAcquire
        ⟨1, 5, fun k => if k = "a" then some [0] else none⟩ "a" 0).2.buckets "a" =
        some (prune ((((⟨1, 5, fun k => if k = "a" then some [0] else none⟩ :
          SlidingWindowRateLimiter).buckets "a")).getD []) 0 5) :=
  bucket_length_bounded_and_full_acquire_rejects 2 5
    [RLOp.tryAcquire "k" 0, RLOp.tryAcquire "k" 0, RLOp.tryAcquire "k" 0] "k"
    ⟨1, 5, fun k => if k = "a" then some [0] else none⟩ "a" 0
    (by decide) (by decide) (by decide)

/-! ## Exactly-once resolution of a PendingCall -/

/-- The single-resolution invariant for the call with correlation id
`i`: the pending ids are distinct and `i` is either still pending with
its continuation unfired, or no longer pending with its continuation
fired exactly once. -/
def ExactlyOnceInv (s : PendingState) (i : Nat) : Prop :=
  s.pending.Nodup ∧
    ((i ∈ s.pending ∧ s.fired i = 0) ∨ (i ∉ s.pending ∧ s.fired i = 1))

theorem resolveTake_inv (s : PendingState) (j i : Nat)
    (h : ExactlyOnceInv s i) : ExactlyOnceInv (s.resolveTake j) i := by
  obtain ⟨hnd, hcase⟩ := h
  unfold PendingState.resolveTake
  by_cases hj : j ∈ s.pending
  · rw [if_pos hj]
    refine ⟨hnd.erase j, ?_⟩
    by_cases hij : i = j
    · subst hij
      rcases hcase with ⟨hm, hf⟩ | ⟨hm, hf⟩
      · right
        refine ⟨fun hmem => (hnd.mem_erase_iff.mp hmem).1 rfl, ?_⟩
        simp [hf]
      · exact absurd hj hm
    · rcases hcase with ⟨hm, hf⟩ | ⟨hm, hf⟩
      · exact Or.inl ⟨(List.mem_erase_of_ne hij).mpr hm, by simp [hij, hf]⟩
      · exact Or.inr ⟨fun hmem => hm (List.mem_of_mem_erase hmem), by simp [hij, hf]⟩
  · rw [if_neg hj]
    exact ⟨hnd, hcase⟩

theorem stepRes_inv (s : PendingState) (e : ResEvent) (i : Nat)
    (h : ExactlyOnceInv s i) : ExactlyOnceInv (s.stepRes e) i := by
  cases e with
  | response j => exact resolveTake_inv s j i h
  | timeout j => exact resolveTake_inv s j i h
  | disconnect =>
    obtain ⟨hnd, hcase⟩ := h
    refine ⟨List.nodup_nil, Or.inr ⟨by simp [PendingState.stepRes], ?_⟩⟩
    rcases hcase with ⟨hm, hf⟩ | ⟨hm, hf⟩ <;>
      simp [PendingState.stepRes, hm, hf]

theorem runRes_inv (i : Nat) :
    ∀ (evs : List ResEvent) (s : PendingState),
      ExactlyOnceInv s i → ExactlyOnceInv (s.runRes evs) i
  | [], _, h => h
  | e :: rest, s, h => by
    have := runRes_inv i rest (s.stepRes e) (stepRes_inv s e i h)
    simpa [PendingState.runRes, List.foldl_cons] using this

theorem stepRes_not_mem (s : PendingState) (e : ResEvent) (i : Nat)
    (h : i ∉ s.pending) : i ∉ (s.stepRes e).pending := by
  cases e with
  | response j =>
    simp only [PendingState.stepRes, PendingState.resolveTake]
    by_cases hj : j ∈ s.pending
    · rw [if_pos hj]
      exact fun hmem => h (List.mem_of_mem_erase hmem)
    · rw [if_neg hj]
      exact h
  | timeout j =>
    simp only [PendingState.stepRes, PendingState.resolveTake]
    by_cases hj : j ∈ s.pending
    · rw [if_pos hj]
      exact fun hmem => h (List.mem_of_mem_erase hmem)
    · rw [if_neg hj]
      exact h
  | disconnect => simp [PendingState.stepRes]

theorem runRes_not_mem (i : Nat) :
    ∀ (evs : List ResEvent) (s : PendingState),
      i ∉ s.pending → i ∉ (s.runRes evs).pending
  | [], _, h => h
  | e :: rest, s, h => by
    have := runRes_not_mem i rest (s.stepRes e) (stepRes_not_mem s e i h)
    simpa [PendingState.runRes, List.foldl_cons] using this

theorem touches_removes (s : PendingState) (e : ResEvent) (i : Nat)
    (hInv : ExactlyOnceInv s i) (ht : e.touches i) :
    i ∉ (s.stepRes e).pending := by
  obtain ⟨hnd, _⟩ := hInv
  rcases ht with rfl | rfl | rfl
  · simp only [PendingState.stepRes, PendingState.resolveTake]
    by_cases hm : i ∈ s.pending
    · rw [if_pos hm]
      exact fun hmem => (hnd.mem_erase_iff.mp hmem).1 rfl
    · rw [if_neg hm]
      exact hm
  · simp only [PendingState.stepRes, PendingState.resolveTake]
    by_cases hm : i ∈ s.pending
    · rw [if_pos hm]
      exact fun hmem => (hnd.mem_erase_iff.mp hmem).1 rfl
    · rw [if_neg hm]
      exact hm
  · simp [PendingState.stepRes]

theorem touches_runRes_not_mem (i : Nat) :
    ∀ (evs : List ResEvent) (s : PendingState),
      ExactlyOnceInv s i → (∃ e ∈ evs, e.touches i) →
      i ∉ (s.runRes evs).pending
  | [], _, _, hex => by simp at hex
  | e :: rest, s, hInv, hex => by
    rcases hex with ⟨e', he', ht⟩
    rcases List.mem_cons.mp he' with rfl | hrest
    · have h1 := touches_removes s e' i hInv ht
      have := runRes_not_mem i rest (s.stepRes e') h1
      simpa [PendingState.runRes, List.foldl_cons] using this
    · have := touches_runRes_not_mem i rest (s.stepRes e)
        (stepRes_inv s e i hInv) ⟨e', hrest, ht⟩
      simpa [PendingState.runRes, List.foldl_cons] using this

/-- C1: a PendingCall's result continuation fires exactly once — along
any interleaving of response, timeout and disconnect-cleanup events the
fire count never exceeds one, and along any interleaving containing at
least one event resolving the call (its response, its timeout, or the
disconnect cleanup) the count is exactly one: the first such path wins
and every later path finds the entry already removed and does nothing. -/
theorem pending_call_fires_exactly_once (s0 : PendingState) (i : Nat)
    (evs evs' : List ResEvent) (e' : ResEvent)
    (hnd : s0.pending.Nodup)
    (hmem : i ∈ s0.pending)
    (hf : s0.fired i = 0)
    (he' : e' ∈ evs')
    (ht : e'.touches i) :
    (s0.runRes evs).fired i ≤ 1
    ∧ (s0.runRes evs').fired i = 1 := by
  have hInv : ExactlyOnceInv s0 i := ⟨hnd, Or.inl ⟨hmem, hf⟩⟩
  constructor
  · rcases (runRes_inv i evs s0 hInv).2 with ⟨_, h1⟩ | ⟨_, h1⟩ <;> omega
  · have hnm := touches_runRes_not_mem i evs' s0 hInv ⟨e', he', ht⟩
    rcases (runRes_inv i evs' s0 hInv).2 with ⟨hm, _⟩ | ⟨_, h1⟩
    · exact absurd hm hnm
    · exact h1

/-- Witness for C1: call 7 pending alone; the interleaving
timeout-then-response-then-disconnect fires the continuation exactly
once. -/
theorem pending_call_fires_exactly_once_witness :
    (PendingState.runRes ⟨[7], fun _ => 0⟩
      [ResEvent.timeout 7, ResEvent.response 7, ResEvent.disconnect]).fired 7 ≤ 1
    ∧ (PendingState.runRes ⟨[7], fun _ => 0⟩
      [ResEvent.timeout 7, ResEvent.response 7, ResEvent.disconnect]).fired 7 = 1 :=
  pending_call_fires_exactly_once ⟨[7], fun _ => 0⟩ 7
    [ResEvent.timeout 7, ResEvent.response 7, ResEvent.disconnect]
    [ResEvent.timeout 7, ResEvent.response 7, ResEvent.disconnect]
    (ResEvent.timeout 7)
    (by simp) (by simp) rfl (by simp) (Or.inr (Or.inl rfl))

/-! ## QUEUE_FULL backpressure -/

theorem invokeN_register_spec (nodeId : String) :
    ∀ k : Nat, k ≤ MAX_PENDING_INVOKES →
      ∃ c : NRConnection,
        ((NodeRegistry.empty.register nodeId).invokeN nodeId k).nodes nodeId = some c
        ∧ c.pending.length = k ∧ c.framesSent = k
  | 0, _ => by
    refine ⟨{ pending := [], framesSent := 0 }, ?_, rfl, rfl⟩
    simp [NodeRegistry.invokeN, NodeRegistry.register]
  | Nat.succ k, hk => by
    obtain ⟨c, hc, hlen, hfr⟩ := invokeN_register_spec nodeId k (by omega)
    have hlt : ¬ MAX_PENDING_INVOKES ≤ c.pending.length := by
      rw [hlen]
      omega
    refine ⟨⟨c.pending ++ [((NodeRegistry.empty.register nodeId).invokeN nodeId
        k).nextCorrId], c.framesSent + 1⟩, ?_, ?_, ?_⟩
    · rw [NodeRegistry.invokeN]
      simp [NodeRegistry.invoke, hc, hlt]
    · simp [hlen]
    · simp [hfr]

/-- C3: an `invoke` on a registered connection whose pending set has
reached the bound (1000) resolves immediately with `QUEUE_FULL` and
leaves the registry untouched — no frame sent, no PendingCall created;
in particular after 1000 unresolved invokes against one node, the
1001st invoke returns `QUEUE_FULL` without contacting the node. -/
theorem invoke_queue_full_rejects_without_frame (r : NodeRegistry) (nodeId : String)
    (c : NRConnection)
    (hc : r.nodes nodeId = some c)
    (hfull : MAX_PENDING_INVOKES ≤ c.pending.length) :
    (r.invoke nodeId).1 = InvokeOutcome.err "QUEUE_FULL"
    ∧ (r.invoke nodeId).2 = r
    ∧ (((NodeRegistry.empty.register nodeId).invokeN nodeId
        MAX_PENDING_INVOKES).invoke nodeId).1 = InvokeOutcome.err "QUEUE_FULL"
    ∧ (((NodeRegistry.empty.register nodeId).invokeN nodeId
        MAX_PENDING_INVOKES).invoke nodeId).2 =
        (NodeRegistry.empty.register nodeId).invokeN nodeId MAX_PENDING_INVOKES := by
  obtain ⟨cfull, hcfull, hlen, _⟩ :=
    invokeN_register_spec nodeId MAX_PENDING_INVOKES le_rfl
  have h1 : ∀ (r' : NodeRegistry) (c' : NRConnection),
      r'.nodes nodeId = some c' → MAX_PENDING_INVOKES ≤ c'.pending.length →
      r'.invoke nodeId = (InvokeOutcome.err "QUEUE_FULL", r') := by
    intro r' c' hc' hf'
    simp [NodeRegistry.invoke, hc', hf']
  have hA := h1 r c hc hfull
  have hB := h1 _ cfull hcfull (by rw [hlen])
  exact ⟨by rw [hA], by rw [hA], by rw [hB], by rw [hB]⟩

/-- Witness for C3 at a registry whose node `"node-1"` has 1000 pending
correlation ids. -/
theorem invoke_queue_full_rejects_without_frame_witness :
    (NodeRegistry.invoke
        ⟨fun k => if k = "node-1" then some ⟨List.range 1000, 1000⟩ else none, 1000⟩
        "node-1").1 = InvokeOutcome.err "QUEUE_FULL"
    ∧ (NodeRegistry.invoke
        ⟨fun k => if k = "node-1" then some ⟨List.range 1000, 1000⟩ else none, 1000⟩
        "node-1").2 =
        ⟨fun k => if k = "node-1" then some ⟨List.range 1000, 1000⟩ else none, 1000⟩
    ∧ (((NodeRegistry.empty.register "node-1").invokeN "node-1"
        MAX_PENDING_INVOKES).invoke "node-1").1 = InvokeOutcome.err "QUEUE_FULL"
    ∧ (((NodeRegistry.empty.register "node-1").invokeN "node-1"
        MAX_PENDING_INVOKES).invoke "node-1").2 =
        (NodeRegistry.empty.register "node-1").invokeN "node-1" MAX_PENDING_INVOKES :=
  invoke_queue_full_rejects_without_frame
    ⟨fun k => if k = "node-1" then some ⟨List.range 1000, 1000⟩ else none, 1000⟩
    "node-1" ⟨List.range 1000, 1000⟩
    (by simp) (by simp [MAX_PENDING_INVOKES])

end Openclaw
